import Mathlib

/-!
Verification of the cooldown-aware retry wrapper, the response-content
extractor, the prompt-queue processor and the DOM element locators of the
ChatGPT-Prompt-Flow-Images repository.

The definitions below are a shallow embedding of the JavaScript/TypeScript
source.  JS numbers are modelled as rationals (`ℚ`), with `Option ℚ` where a
`NaN` check matters; asynchronous operations are modelled as pure functions
returning `Except` (a thrown value or a returned value); `Math.random` is
modelled as an explicit stream of draws `Nat → ℚ` indexed by how many draws
have been consumed.  Every function is total, so "never throws" claims are
expressed by the functions returning `Option`/`Except` values.
-/

namespace ImageCooldown

/-- The `source` tag carried by an `ImageCooldownError` (`'response' | 'error'`). -/
inductive Src where
  | response : Src
  | error : Src

/-- A value that can be thrown while `withImageCooldownRetry` runs: either a
value thrown by the wrapped operation (`user`), or one of the
`ImageCooldownError`s the wrapper itself constructs — `iceResp r` is
`new ImageCooldownError('Image generation cooldown detected.',
{source:'response', payload: r})`, `iceErr e` the same with `source:'error'`
and the caught error as payload, and `iceGeneric` the defensive
`new ImageCooldownError('Image generation failed after cooldown handling.')`
with no source and no payload. -/
inductive JsErr (V : Type) where
  | user : V → JsErr V
  | iceResp : V → JsErr V
  | iceErr : JsErr V → JsErr V
  | iceGeneric : JsErr V

/-- The `message` of a thrown value, when it is one of the wrapper's own
`ImageCooldownError`s (the messages are literals in the source). -/
def JsErr.message {V : Type} : JsErr V → Option String
  | .user _ => none
  | .iceResp _ => some "Image generation cooldown detected."
  | .iceErr _ => some "Image generation cooldown detected."
  | .iceGeneric => some "Image generation failed after cooldown handling."

/-- The `source` field of a thrown `ImageCooldownError` (`none` for a user
error or for the generic terminal error, which sets no source). -/
def JsErr.source {V : Type} : JsErr V → Option Src
  | .iceResp _ => some .response
  | .iceErr _ => some .error
  | _ => none

/-- The `payload` field of a thrown `ImageCooldownError`: the last response
(`Sum.inl`) or the last caught error (`Sum.inr`); `none` when absent. -/
def JsErr.payload {V : Type} : JsErr V → Option (V ⊕ JsErr V)
  | .iceResp v => some (.inl v)
  | .iceErr e => some (.inr e)
  | _ => none

/-- An `ImageCooldownEvent` as delivered to the `onCooldown` callback:
`{ attempt, waitMs, source, payload }`. -/
structure CEvent (V : Type) where
  attempt : Nat
  waitMs : ℚ
  source : Src
  payload : V ⊕ JsErr V

/-- The caller-supplied `ImageCooldownRetryOptions`.  The source defaults are
`baseDelayMs = 60000`, `jitterMsRange = [5000, 10000]`, `maxAttempts = 3`,
`detector = isImageCooldownResponse`, `errorDetector = isImageCooldownError`
and no fallback; the embedding passes all fields explicitly.  The jitter
bounds are `Option ℚ`, `none` standing for `NaN`.  The fallback, when
present, is modelled by the value it returns. -/
structure RetryOptions (V : Type) where
  baseDelayMs : ℚ
  jitterMsRange : Option ℚ × Option ℚ
  maxAttempts : Int
  detector : V → Bool
  errorDetector : JsErr V → Bool
  fallback : Option V

/-- Embeds `normalizeJitterRange`: `NaN` in either bound collapses to `[0,0]`; a
reversed pair is swapped (without clamping); an in-order pair has both bounds
clamped to `≥ 0`. -/
def normalizeJitterRange : Option ℚ × Option ℚ → ℚ × ℚ
  | (none, _) => (0, 0)
  | (_, none) => (0, 0)
  | (some mn, some mx) =>
      if mx < mn then (mx, mn) else (max 0 mn, max 0 mx)

/-- Embeds `computeWaitTime(baseDelayMs, minJitterMs, maxJitterMs)`, with the
`Math.random()` draw passed explicitly as `rand`. -/
def computeWaitTime (baseDelayMs minJitterMs maxJitterMs rand : ℚ) : ℚ :=
  let jitterRange := max 0 (maxJitterMs - minJitterMs)
  let jitter := if jitterRange > 0 then rand * jitterRange + minJitterMs else minJitterMs
  baseDelayMs + jitter

/-- Everything observable about one run of `withImageCooldownRetry`: the
attempt numbers passed to the wrapped operation in order, the computed wait
durations in order, the emitted `onCooldown` events in order, and the final
outcome (a returned value or a thrown value). -/
structure RetryTrace (V : Type) where
  calls : List Nat
  waits : List ℚ
  events : List (CEvent V)
  outcome : Except (JsErr V) V

/-- The `catch` block of `withImageCooldownRetry`'s loop body, for a caught
value `e`.  It either finishes the run (`Sum.inr`: rethrow a non-cooldown
error, return the fallback, or throw the terminal error), or instructs the
loop to wait and continue (`Sum.inl`: the computed wait, the cooldown event,
and the updated random-draw counter). -/
def retryCatch {V : Type} (o : RetryOptions V) (minJ maxJ : ℚ) (rand : Nat → ℚ)
    (attempt k : Nat) (e : JsErr V) :
    (ℚ × CEvent V × Nat) ⊕ Except (JsErr V) V :=
  if o.errorDetector e = false then .inr (.error e)
  else if (attempt : Int) ≥ o.maxAttempts then
    match o.fallback with
    | some fb => .inr (.ok fb)
    | none => .inr (.error (.iceErr e))
  else
    let w := computeWaitTime o.baseDelayMs minJ maxJ (rand k)
    .inl (w, ⟨attempt, w, .error, .inr e⟩, if maxJ - minJ > 0 then k + 1 else k)

/-- The `for (let attempt = 1; attempt <= maxAttempts; attempt += 1)` loop of
`withImageCooldownRetry`.  `attempt` is the current attempt number, `fuel` a
structural bound (chosen so the loop-exit test fires before it runs out), and
`k` the number of random draws consumed so far.  Note that the terminal
response-cooldown error is thrown inside the `try` block, so it passes
through the `catch` (`retryCatch`) like any other thrown value. -/
def withRetryGo {V : Type} (requestFn : Nat → Except (JsErr V) V)
    (o : RetryOptions V) (minJ maxJ : ℚ) (rand : Nat → ℚ) :
    Nat → Nat → Nat → RetryTrace V
  | _, 0, _ => ⟨[], [], [], .error .iceGeneric⟩
  | attempt, fuel + 1, k =>
    if (attempt : Int) > o.maxAttempts then ⟨[], [], [], .error .iceGeneric⟩
    else
      match requestFn attempt with
      | .error e =>
        match retryCatch o minJ maxJ rand attempt k e with
        | .inr out => ⟨[attempt], [], [], out⟩
        | .inl (w, ev, k2) =>
          let t := withRetryGo requestFn o minJ maxJ rand (attempt + 1) fuel k2
          ⟨attempt :: t.calls, w :: t.waits, ev :: t.events, t.outcome⟩
      | .ok result =>
        if o.detector result = true then
          if (attempt : Int) ≥ o.maxAttempts then
            match o.fallback with
            | some fb => ⟨[attempt], [], [], .ok fb⟩
            | none =>
              match retryCatch o minJ maxJ rand attempt k (.iceResp result) with
              | .inr out => ⟨[attempt], [], [], out⟩
              | .inl (w, ev, k2) =>
                let t := withRetryGo requestFn o minJ maxJ rand (attempt + 1) fuel k2
                ⟨attempt :: t.calls, w :: t.waits, ev :: t.events, t.outcome⟩
          else
            let w := computeWaitTime o.baseDelayMs minJ maxJ (rand k)
            let k2 := if maxJ - minJ > 0 then k + 1 else k
            let t := withRetryGo requestFn o minJ maxJ rand (attempt + 1) fuel k2
            ⟨attempt :: t.calls, w :: t.waits,
              ⟨attempt, w, .response, .inl result⟩ :: t.events, t.outcome⟩
        else ⟨[attempt], [], [], .ok result⟩

/-- Embeds `withImageCooldownRetry(requestFn, options)`: normalize the jitter range
and run the attempt loop from attempt `1`.  The fuel `maxAttempts.toNat + 1`
makes the loop-exit test `attempt > maxAttempts` fire before fuel runs out,
and both give the same defensive terminal error, matching the source. -/
def withImageCooldownRetry {V : Type} (requestFn : Nat → Except (JsErr V) V)
    (o : RetryOptions V) (rand : Nat → ℚ) : RetryTrace V :=
  let nj := normalizeJitterRange o.jitterMsRange
  withRetryGo requestFn o nj.1 nj.2 rand 1 (o.maxAttempts.toNat + 1) 0

/-- A JavaScript value as it flows through `extractAssistantContent`:
strings, numbers (rationals), booleans, `null`, `undefined`, arrays and plain
objects (ordered key/value lists). -/
inductive JsonV where
  | str : String → JsonV
  | num : ℚ → JsonV
  | bool : Bool → JsonV
  | null : JsonV
  | undefined : JsonV
  | arr : List JsonV → JsonV
  | obj : List (String × JsonV) → JsonV

/-- JS property access `x[k]`: a field of a plain object, `undefined`
otherwise (including on arrays, strings and primitives, where the properties
read by the source are absent). -/
def JsonV.getField : JsonV → String → JsonV
  | .obj fields, k =>
    match fields.find? (fun kv => kv.1 == k) with
    | some kv => kv.2
    | none => .undefined
  | _, _ => .undefined

/-- JS truthiness: `undefined`, `null`, `false`, `0` and `""` are falsy;
arrays and objects are truthy. -/
def JsonV.truthy : JsonV → Bool
  | .str s => !(s == "")
  | .num q => !(q == 0)
  | .bool b => b
  | .null => false
  | .undefined => false
  | .arr _ => true
  | .obj _ => true

/-- The test `typeof x === 'object'`: objects, arrays and `null`. -/
def JsonV.isObj : JsonV → Bool
  | .obj _ => true
  | .arr _ => true
  | .null => true
  | _ => false

/-- One iteration of the `for (const choice of maybeAny.choices)` loop of
`extractAssistantContent`: skip non-object choices; if `choice.message` is
truthy return its string `content` or `text`; otherwise return the choice's
own string `text`; `none` means the loop continues. -/
def choiceContent (choice : JsonV) : Option String :=
  if !(choice.truthy && choice.isObj) then none
  else
    let message := choice.getField "message"
    let fromMessage :=
      if message.truthy then
        match message.getField "content" with
        | .str s => some s
        | _ =>
          match message.getField "text" with
          | .str s => some s
          | _ => none
      else none
    match fromMessage with
    | some s => some s
    | none =>
      match choice.getField "text" with
      | .str s => some s
      | _ => none

/-- The whole `choices` loop: first choice that yields a string wins. -/
def firstChoiceContent : List JsonV → Option String
  | [] => none
  | c :: cs =>
    match choiceContent c with
    | some s => some s
    | none => firstChoiceContent cs

/-- Embeds `extractAssistantContent(payload)`: a raw string; else, for a truthy
object, the first string found among the `choices` records, the top-level
string `message`, the nested `error.message`, or a top-level string `error`;
`undefined` (`none`) otherwise. -/
def extractAssistantContent (payload : JsonV) : Option String :=
  match payload with
  | .str s => some s
  | _ =>
    if payload.truthy && payload.isObj then
      let fromChoices :=
        match payload.getField "choices" with
        | .arr cs => firstChoiceContent cs
        | _ => none
      match fromChoices with
      | some s => some s
      | none =>
        match payload.getField "message" with
        | .str s => some s
        | _ =>
          let e := payload.getField "error"
          let fromErrObj :=
            if e.truthy && e.isObj then
              match e.getField "message" with
              | .str s => some s
              | _ => none
            else none
          match fromErrObj with
          | some s => some s
          | none =>
            match e with
            | .str s => some s
            | _ => none
    else none

end ImageCooldown

namespace PromptQueue

/-- An observable action of the content script's queue machinery, in the
order it happens: toggling the `isProcessing` flag, a `notify` progress
message, a `sendPrompt` invocation (with the prompt's index and text), a
`waitForCompletion` invocation, the initial `ensureComposer`, and the fixed
inter-item settle `sleep(500)`. -/
inductive QEvent where
  | flagSet : Bool → QEvent
  | notify : String → QEvent
  | send : Nat → String → QEvent
  | waitC : QEvent
  | ensure : QEvent
  | settle : QEvent

/-- The environment a queue run interacts with: the outcomes of the initial
`ensureComposer`, the initial `waitForCompletion`, and, for each prompt
index, of `sendPrompt` and of the per-prompt `waitForCompletion` (an
`Except.error` is a thrown `Error` with the given message). -/
structure QEnv where
  ensureRes : Except String Unit
  initWait : Except String Unit
  sendRes : Nat → Except String Unit
  waitRes : Nat → Except String Unit

/-- The progress strings built by `processPrompts`:
`` `(${index + 1}/${prompts.length}) ...` ``. -/
def progressMsg (i n : Nat) (tail : String) : String :=
  "(" ++ toString (i + 1) ++ "/" ++ toString n ++ ") " ++ tail

/-- The `for (let index = 0; ...)` loop of `processPrompts`: per prompt, the
`Sending` notification, `sendPrompt`, the `Waiting` notification,
`waitForCompletion`, the `Done` notification and the settle delay; the first
failure aborts the remainder and propagates. -/
def queueLoop (env : QEnv) (n : Nat) : Nat → List String → List QEvent × Except String Unit
  | _, [] => ([], .ok ())
  | i, p :: rest =>
    let e1 := QEvent.notify (progressMsg i n "Sending prompt...")
    match env.sendRes i with
    | .error m => ([e1, QEvent.send i p], .error m)
    | .ok _ =>
      let e2 := QEvent.notify (progressMsg i n "Waiting for completion...")
      match env.waitRes i with
      | .error m => ([e1, QEvent.send i p, e2, QEvent.waitC], .error m)
      | .ok _ =>
        let r := queueLoop env n (i + 1) rest
        ([e1, QEvent.send i p, e2, QEvent.waitC,
          QEvent.notify (progressMsg i n "Done."), QEvent.settle] ++ r.1, r.2)

/-- The body of `processPrompts`'s `try` block: `ensureComposer`, the initial
`waitForCompletion`, then the prompt loop. -/
def processBody (env : QEnv) (ps : List String) : List QEvent × Except String Unit :=
  match env.ensureRes with
  | .error m => ([QEvent.ensure], .error m)
  | .ok _ =>
    match env.initWait with
    | .error m => ([QEvent.ensure, QEvent.waitC], .error m)
    | .ok _ =>
      let r := queueLoop env ps.length 0 ps
      (QEvent.ensure :: QEvent.waitC :: r.1, r.2)

/-- Embeds `processPrompts(prompts)`: `isProcessing = true`, the `try` body, and the
`finally` that resets the flag on every exit path. -/
def processPrompts (env : QEnv) (ps : List String) : List QEvent × Except String Unit :=
  let r := processBody env ps
  (QEvent.flagSet true :: (r.1 ++ [QEvent.flagSet false]), r.2)

/-- The reply sent back for a `START_PROMPT_QUEUE` message:
`{ ok: true }` or `{ error: string }`. -/
inductive Reply where
  | ok : Reply
  | err : String → Reply

/-- The `chrome.runtime.onMessage` handler for a `START_PROMPT_QUEUE`
message, given the current value of the `isProcessing` flag: when a queue is
already running it replies with the error immediately and runs nothing;
otherwise it runs `processPrompts`, replying `ok` on success and, on failure,
emitting the `Error: ...` notification and replying with the message. -/
def handleStartPromptQueue (running : Bool) (env : QEnv) (ps : List String) :
    Reply × List QEvent :=
  if running then (.err "A prompt queue is already running.", [])
  else
    let r := processPrompts env ps
    match r.2 with
    | .ok _ => (.ok, r.1)
    | .error m => (.err m, r.1 ++ [QEvent.notify ("Error: " ++ m)])

/-- The canonical per-prompt event block of a fully successful run, used to
state the ordering claim: `Sending` notification, the send, `Waiting`
notification, the completion wait, `Done` notification, settle delay. -/
def expectedTrace (n : Nat) : Nat → List String → List QEvent
  | _, [] => []
  | i, p :: rest =>
    QEvent.notify (progressMsg i n "Sending prompt...") :: QEvent.send i p ::
    QEvent.notify (progressMsg i n "Waiting for completion...") :: QEvent.waitC ::
    QEvent.notify (progressMsg i n "Done.") :: QEvent.settle :: expectedTrace n (i + 1) rest

/-- Projection extracting the `sendPrompt` invocations from a trace. -/
def sendOf : QEvent → Option (Nat × String)
  | .send i p => some (i, p)
  | _ => none

end PromptQueue

namespace Dom

/-- Substring test on character lists (`JS String.prototype.includes`):
`leadsWith pat s` is `startsWith`, `occursIn pat s` is containment. -/
def leadsWith : List Char → List Char → Bool
  | [], _ => true
  | _ :: _, [] => false
  | a :: as, b :: bs => a == b && leadsWith as bs

/-- Containment of `pat` anywhere in `s`. -/
def occursIn (pat : List Char) : List Char → Bool
  | [] => leadsWith pat []
  | b :: bs => leadsWith pat (b :: bs) || occursIn pat bs

/-- The test `s.includes(pat)` on strings. -/
def strContains (s pat : String) : Bool :=
  occursIn pat.toList s.toList

/-- The per-node data of a DOM element the source reads: lowercase tag name,
attributes, `textContent`, whether the computed style hides it
(`visibility: hidden` or `display: none`), the bounding-rect dimensions, and
the `disabled` IDL property. -/
structure ElemData where
  tag : String
  attrs : List (String × String)
  text : String
  hiddenStyle : Bool
  width : ℚ
  height : ℚ
  disabled : Bool

/-- A DOM element: its data and its children in document order. -/
inductive Elem where
  | mk : ElemData → List Elem → Elem

/-- The data of an element. -/
def Elem.dat : Elem → ElemData
  | .mk d _ => d

/-- The children of an element. -/
def Elem.children : Elem → List Elem
  | .mk _ cs => cs

/-- The tag of an element. -/
def Elem.tag (e : Elem) : String := e.dat.tag

/-- Embeds `getAttribute`: first binding of the attribute, `null` (`none`) if absent. -/
def getAttr (e : Elem) (k : String) : Option String :=
  (e.dat.attrs.find? (fun kv => kv.1 == k)).map (fun kv => kv.2)

/-- One attribute condition of a CSS simple selector: `[k="v"]`,
case-sensitive `[k*="v"]`, or case-insensitive `[k*="v" i]`. -/
inductive AttrCond where
  | eqv : String → String → AttrCond
  | containsCS : String → String → AttrCond
  | containsCI : String → String → AttrCond

/-- Whether an element satisfies an attribute condition. -/
def matchesCond (e : Elem) : AttrCond → Bool
  | .eqv k v => getAttr e k == some v
  | .containsCS k v =>
    match getAttr e k with
    | some s => strContains s v
    | none => false
  | .containsCI k v =>
    match getAttr e k with
    | some s => strContains s.toLower v.toLower
    | none => false

/-- A CSS simple selector: an optional tag plus attribute conditions. -/
structure Simple where
  tag : Option String
  conds : List AttrCond

/-- Whether an element matches a simple selector. -/
def matchesSimple (s : Simple) (e : Elem) : Bool :=
  (match s.tag with
   | some t => e.tag == t
   | none => true) && s.conds.all (matchesCond e)

/-- A selector of the shapes the source uses: a simple selector, or a
descendant combination `A B`. -/
inductive Selector where
  | one : Simple → Selector
  | desc : Simple → Simple → Selector

/-- The rightmost simple selector — the one the returned element itself must
match. -/
def lastSimple : Selector → Simple
  | .one s => s
  | .desc _ b => b

/-- Whether an element with the given ancestor chain matches a selector. -/
def matchesSel (anc : List Elem) (sel : Selector) (e : Elem) : Bool :=
  match sel with
  | .one s => matchesSimple s e
  | .desc a b => matchesSimple b e && anc.any (matchesSimple a)

/-- The traversal of `querySelectorAll` over a forest, in document order, carrying the
ancestor chain for descendant selectors. -/
def qsaChildren (sel : Selector) (anc : List Elem) : List Elem → List Elem
  | [] => []
  | .mk d cs :: es =>
    (if matchesSel anc sel (.mk d cs) then [Elem.mk d cs] else []) ++
      qsaChildren sel (Elem.mk d cs :: anc) cs ++ qsaChildren sel anc es

/-- Embeds `document.querySelectorAll(sel)` for a document given by its roots. -/
def querySelectorAll (doc : List Elem) (sel : Selector) : List Elem :=
  qsaChildren sel [] doc

/-- Embeds `document.querySelector(sel)`: first match in document order, else `null`. -/
def querySelector (doc : List Elem) (sel : Selector) : Option Elem :=
  (querySelectorAll doc sel).head?

/-- Embeds `el.querySelector(sel)`: first matching proper descendant of `el`. -/
def elQuery (e : Elem) (sel : Selector) : Option Elem :=
  (qsaChildren sel [e] e.children).head?

/-- All elements of a forest (each node and all its descendants). -/
def allList : List Elem → List Elem
  | [] => []
  | .mk d cs :: es => Elem.mk d cs :: (allList cs ++ allList es)

/-- The `'[contenteditable="true"]'` simple selector. -/
def ceSimple : Simple := ⟨none, [.eqv "contenteditable" "true"]⟩

/-- The bare `'textarea'` simple selector. -/
def taSimple : Simple := ⟨some "textarea", []⟩

/-- The body of `getComposer`'s loop for a matched element: return it if it
is itself `contenteditable`, else a nested `contenteditable` descendant, else
the element if it is a `textarea`/`input`, else a nested `textarea`; `none`
falls through to the next selector. -/
def composerStep (el : Elem) : Option Elem :=
  if matchesSimple ceSimple el then some el
  else
    match elQuery el (.one ceSimple) with
    | some nested => some nested
    | none =>
      if el.tag == "textarea" || el.tag == "input" then some el
      else elQuery el (.one taSimple)

/-- The scan of `getComposer` over its ranked selector list. -/
def composerScan (doc : List Elem) : List Selector → Option Elem
  | [] => none
  | sel :: rest =>
    match querySelector doc sel with
    | some el =>
      match composerStep el with
      | some r => some r
      | none => composerScan doc rest
    | none => composerScan doc rest

/-- The ranked composer selector list of `getComposer`, in source order. -/
def composerSelectors : List Selector := [
  .one ⟨some "textarea", [.eqv "data-testid" "prompt-text-input"]⟩,
  .one ⟨some "textarea", [.eqv "data-testid" "prompt-textarea"]⟩,
  .one ⟨some "textarea", [.eqv "data-testid" "textbox"]⟩,
  .desc ⟨some "div", [.eqv "data-testid" "prompt-textarea"]⟩ ⟨some "textarea", []⟩,
  .desc ⟨some "div", [.eqv "data-testid" "prompt-textarea"]⟩ ⟨none, [.eqv "contenteditable" "true"]⟩,
  .desc ⟨some "div", [.eqv "data-testid" "prompt-editor"]⟩ ⟨some "textarea", []⟩,
  .desc ⟨some "div", [.eqv "data-testid" "prompt-editor"]⟩ ⟨none, [.eqv "contenteditable" "true"]⟩,
  .desc ⟨some "div", [.eqv "data-testid" "composer-textarea"]⟩ ⟨some "textarea", []⟩,
  .desc ⟨some "div", [.eqv "data-testid" "composer-textarea"]⟩ ⟨none, [.eqv "contenteditable" "true"]⟩,
  .one ⟨some "div", [.eqv "role" "textbox", .eqv "data-testid" "prompt-textarea"]⟩,
  .one ⟨some "div", [.eqv "role" "textbox", .containsCI "aria-label" "Describe"]⟩,
  .one ⟨some "div", [.eqv "role" "textbox", .containsCI "aria-label" "want to see"]⟩,
  .one ⟨some "textarea", [.eqv "data-id" "root"]⟩,
  .desc ⟨some "div", [.eqv "data-id" "root"]⟩ ⟨some "textarea", []⟩,
  .one ⟨some "div", [.eqv "contenteditable" "true", .eqv "data-id" "root"]⟩,
  .one ⟨some "div", [.eqv "data-lexical-editor" "true", .eqv "contenteditable" "true"]⟩,
  .one ⟨some "textarea", [.containsCI "placeholder" "Message"]⟩,
  .one ⟨some "textarea", [.containsCI "placeholder" "Describe"]⟩,
  .one ⟨some "textarea", [.containsCI "placeholder" "Create"]⟩,
  .one ⟨some "textarea", [.containsCS "data-testid" "composer"]⟩,
  .one ⟨some "textarea", [.containsCS "data-testid" "prompt"]⟩,
  .one ⟨some "textarea", [.containsCS "data-testid" "message"]⟩,
  .one ⟨some "div", [.eqv "contenteditable" "true", .containsCS "data-testid" "composer"]⟩,
  .one ⟨some "div", [.eqv "contenteditable" "true", .containsCS "data-testid" "prompt"]⟩,
  .one ⟨some "div", [.eqv "contenteditable" "true", .containsCS "data-testid" "message"]⟩,
  .one ⟨some "div", [.eqv "role" "textbox", .containsCS "data-testid" "composer"]⟩,
  .one ⟨some "div", [.eqv "role" "textbox", .containsCS "data-testid" "prompt"]⟩,
  .one ⟨some "div", [.eqv "role" "textbox", .containsCS "data-testid" "message"]⟩,
  .one ⟨some "div", [.eqv "contenteditable" "true"]⟩,
  .one ⟨some "textarea", []⟩]

/-- Embeds `getComposer()`. -/
def getComposer (doc : List Elem) : Option Elem :=
  composerScan doc composerSelectors

/-- Embeds `isVisible(element)`: not hidden by style and with a positive rect. -/
def isVisible (e : Elem) : Bool :=
  !e.dat.hiddenStyle && decide (0 < e.dat.width) && decide (0 < e.dat.height)

/-- Embeds `getAttribute(k)?.toLowerCase() || ''`. -/
def attrLower (e : Elem) (k : String) : String :=
  match getAttr e k with
  | some s => s.toLower
  | none => ""

/-- Embeds `isStopButton(button)`: `stop`/`cancel` in the aria-label, the
data-testid, or the trimmed lowercase text. -/
def isStopButton (b : Elem) : Bool :=
  let ariaLabel := attrLower b "aria-label"
  let dataTestId := attrLower b "data-testid"
  let text := b.dat.text.trim.toLower
  strContains ariaLabel "stop" || strContains ariaLabel "cancel" ||
  strContains dataTestId "stop" || strContains dataTestId "cancel" ||
  strContains text "stop" || strContains text "cancel"

/-- The filter `getSendButton` applies to a candidate button: visible, not a
stop/cancel affordance, and (unless `includeDisabled`) neither `disabled` nor
`aria-disabled="true"`. -/
def usableSend (includeDisabled : Bool) (b : Elem) : Bool :=
  isVisible b && !isStopButton b &&
    (includeDisabled || !(b.dat.disabled || getAttr b "aria-disabled" == some "true"))

/-- The scan of `getSendButton` over its ranked selector list: first usable button
among each selector's matches. -/
def sendScan (incl : Bool) (doc : List Elem) : List Selector → Option Elem
  | [] => none
  | sel :: rest =>
    match (querySelectorAll doc sel).find? (usableSend incl) with
    | some b => some b
    | none => sendScan incl doc rest

/-- The text heuristic of `getSendButton`'s fallback loop. -/
def sendTextMatches (b : Elem) : Bool :=
  let t := b.dat.text.trim.toLower
  strContains t "send" || strContains t "generate" ||
  strContains t "create" || strContains t "submit"

/-- The fallback loop of `getSendButton` over every `button` in the document. -/
def sendFallbackScan (incl : Bool) : List Elem → Option Elem
  | [] => none
  | b :: bs =>
    if usableSend incl b && sendTextMatches b then some b
    else sendFallbackScan incl bs

/-- The bare `'button'` selector. -/
def buttonSel : Selector := .one ⟨some "button", []⟩

/-- The ranked send-button selector list of `getSendButton`, in source order. -/
def sendSelectors : List Selector := [
  .one ⟨some "button", [.eqv "data-testid" "send-button"]⟩,
  .one ⟨some "button", [.eqv "data-testid" "send"]⟩,
  .one ⟨some "button", [.eqv "data-testid" "composer-send-button"]⟩,
  .one ⟨some "button", [.eqv "data-testid" "prompt-send-button"]⟩,
  .one ⟨some "button", [.eqv "data-testid" "prompt-submit-button"]⟩,
  .one ⟨some "button", [.eqv "data-testid" "prompt-submit"]⟩,
  .one ⟨some "button", [.containsCS "data-testid" "composer"]⟩,
  .one ⟨some "button", [.containsCS "data-testid" "prompt"]⟩,
  .one ⟨some "button", [.containsCS "data-testid" "generate"]⟩,
  .one ⟨some "button", [.containsCS "data-testid" "submit"]⟩,
  .one ⟨some "button", [.containsCI "aria-label" "Send"]⟩,
  .one ⟨some "button", [.containsCI "aria-label" "submit"]⟩,
  .one ⟨some "button", [.containsCI "aria-label" "Generate"]⟩,
  .desc ⟨some "form", []⟩ ⟨some "button", [.eqv "type" "submit"]⟩]

/-- Embeds `getSendButton({ includeDisabled })`. -/
def getSendButton (incl : Bool) (doc : List Elem) : Option Elem :=
  match sendScan incl doc sendSelectors with
  | some b => some b
  | none => sendFallbackScan incl (querySelectorAll doc buttonSel)

end Dom

namespace Instances

open ImageCooldown PromptQueue

/-- An operation that always returns the response `1`. -/
def demoOp : Nat → Except (JsErr Nat) Nat := fun _ => .ok 1

/-- The all-zero random stream. -/
def randZero : Nat → ℚ := fun _ => 0

/-- Options whose detector classifies the response `5` (and only `5`) as a
cooldown, with three attempts and a disabled jitter range. -/
def demoOpts3 : RetryOptions Nat :=
  ⟨60000, (some 0, some 0), 3, fun v => v == 5, fun _ => false, none⟩

/-- An operation returning the cooldown response `5` on attempt 1 and the
normal response `7` afterwards. -/
def demoOpCooldownThenOk : Nat → Except (JsErr Nat) Nat :=
  fun a => if a == 1 then .ok 5 else .ok 7

/-- Options classifying every response as a cooldown, two attempts, no
fallback. -/
def demoOptsExhaust : RetryOptions Nat :=
  ⟨0, (some 0, some 0), 2, fun _ => true, fun _ => false, none⟩

/-- Options with `maxAttempts = 0`. -/
def demoOptsZero : RetryOptions Nat :=
  ⟨0, (some 0, some 0), 0, fun _ => true, fun _ => false, none⟩

/-- Options classifying nothing as a cooldown. -/
def demoOptsPlain : RetryOptions Nat :=
  ⟨0, (some 0, some 0), 3, fun _ => false, fun _ => false, none⟩

/-- An operation that throws the user error `9` on every attempt. -/
def demoOpThrow : Nat → Except (JsErr Nat) Nat := fun _ => .error (.user 9)

/-- Options with a reversed, negative jitter range `[0, -10]`: after
normalization the jitter span is positive but the minimum is `-10`, so every
computed wait is `baseDelayMs - 10`. -/
def reversedJitterOpts : RetryOptions Nat :=
  ⟨60000, (some 0, some (-10)), 3, fun _ => true, fun _ => false, none⟩

/-- A queue environment in which every step succeeds. -/
def envOk : QEnv := ⟨.ok (), .ok (), fun _ => .ok (), fun _ => .ok ()⟩

end Instances

/-! ## Verification -/

open ImageCooldown PromptQueue Dom Instances

namespace ImageCooldown

/-- Unfolding lemma: the catch block rethrows a non-cooldown error at once. -/
theorem retryCatch_unrelated {V : Type} {o : RetryOptions V} {minJ maxJ : ℚ}
    {rand : Nat → ℚ} {a k : Nat} {e : JsErr V}
    (hdet : o.errorDetector e = false) :
    retryCatch o minJ maxJ rand a k e = .inr (.error e) := by
  unfold retryCatch
  rw [if_pos hdet]

/-- Unfolding lemma: the catch block on a cooldown error before the last
attempt computes a wait, emits the event and continues. -/
theorem retryCatch_continue {V : Type} {o : RetryOptions V} {minJ maxJ : ℚ}
    {rand : Nat → ℚ} {a k : Nat} {e : JsErr V}
    (hdet : o.errorDetector e = true) (hlt : (a : Int) < o.maxAttempts) :
    retryCatch o minJ maxJ rand a k e =
      .inl (computeWaitTime o.baseDelayMs minJ maxJ (rand k),
        ⟨a, computeWaitTime o.baseDelayMs minJ maxJ (rand k), .error, .inr e⟩,
        if maxJ - minJ > 0 then k + 1 else k) := by
  unfold retryCatch
  rw [if_neg (by simp [hdet]), if_neg (not_le.2 hlt)]

/-- Unfolding lemma: the catch block on a cooldown error at the last attempt
returns the fallback when one is supplied. -/
theorem retryCatch_exhaust_fallback {V : Type} {o : RetryOptions V} {minJ maxJ : ℚ}
    {rand : Nat → ℚ} {a k : Nat} {e : JsErr V} {fb : V}
    (hdet : o.errorDetector e = true) (hge : o.maxAttempts ≤ (a : Int))
    (hfb : o.fallback = some fb) :
    retryCatch o minJ maxJ rand a k e = .inr (.ok fb) := by
  unfold retryCatch
  rw [if_neg (by simp [hdet]), if_pos hge, hfb]

/-- Unfolding lemma: the catch block on a cooldown error at the last attempt
throws the terminal error with source `'error'` when no fallback exists. -/
theorem retryCatch_exhaust_noFallback {V : Type} {o : RetryOptions V} {minJ maxJ : ℚ}
    {rand : Nat → ℚ} {a k : Nat} {e : JsErr V}
    (hdet : o.errorDetector e = true) (hge : o.maxAttempts ≤ (a : Int))
    (hfb : o.fallback = none) :
    retryCatch o minJ maxJ rand a k e = .inr (.error (.iceErr e)) := by
  unfold retryCatch
  rw [if_neg (by simp [hdet]), if_pos hge, hfb]

/-- Unfolding lemma: a non-cooldown response is returned at once. -/
theorem withRetryGo_return {V : Type} {op : Nat → Except (JsErr V) V}
    {o : RetryOptions V} {minJ maxJ : ℚ} {rand : Nat → ℚ} {a fuel k : Nat} {v : V}
    (hle : (a : Int) ≤ o.maxAttempts) (hop : op a = .ok v)
    (hdet : o.detector v = false) :
    withRetryGo op o minJ maxJ rand a (fuel + 1) k = ⟨[a], [], [], .ok v⟩ := by
  simp only [withRetryGo]
  rw [if_neg (not_lt.2 hle), hop]
  simp only [hdet, Bool.false_eq_true, if_false]

/-- Unfolding lemma: a cooldown response before the last attempt computes a
wait, emits the event, waits and continues with the next attempt. -/
theorem withRetryGo_cooldown_continue {V : Type} {op : Nat → Except (JsErr V) V}
    {o : RetryOptions V} {minJ maxJ : ℚ} {rand : Nat → ℚ} {a fuel k : Nat} {v : V}
    (hlt : (a : Int) < o.maxAttempts) (hop : op a = .ok v)
    (hdet : o.detector v = true) :
    withRetryGo op o minJ maxJ rand a (fuel + 1) k =
      ⟨a :: (withRetryGo op o minJ maxJ rand (a + 1) fuel
              (if maxJ - minJ > 0 then k + 1 else k)).calls,
       computeWaitTime o.baseDelayMs minJ maxJ (rand k) ::
         (withRetryGo op o minJ maxJ rand (a + 1) fuel
           (if maxJ - minJ > 0 then k + 1 else k)).waits,
       ⟨a, computeWaitTime o.baseDelayMs minJ maxJ (rand k), .response, .inl v⟩ ::
         (withRetryGo op o minJ maxJ rand (a + 1) fuel
           (if maxJ - minJ > 0 then k + 1 else k)).events,
       (withRetryGo op o minJ maxJ rand (a + 1) fuel
         (if maxJ - minJ > 0 then k + 1 else k)).outcome⟩ := by
  simp only [withRetryGo]
  rw [if_neg (not_lt.2 hlt.le), hop]
  simp only [hdet, eq_self_iff_true, if_true, if_neg (not_le.2 hlt)]

/-- Unfolding lemma: a caught error at the last attempt throws the user error
on a cooldown error without fallback — the loop body rethrows a thrown value
through `retryCatch`. -/
theorem withRetryGo_thrown {V : Type} {op : Nat → Except (JsErr V) V}
    {o : RetryOptions V} {minJ maxJ : ℚ} {rand : Nat → ℚ} {a fuel k : Nat}
    {e : JsErr V} {out : Except (JsErr V) V}
    (hle : (a : Int) ≤ o.maxAttempts) (hop : op a = .error e)
    (hcatch : retryCatch o minJ maxJ rand a k e = .inr out) :
    withRetryGo op o minJ maxJ rand a (fuel + 1) k = ⟨[a], [], [], out⟩ := by
  simp only [withRetryGo]
  rw [if_neg (not_lt.2 hle), hop]
  simp only [hcatch]

/-- Unfolding lemma: a caught cooldown error before the last attempt
computes a wait, emits the event, waits and continues. -/
theorem withRetryGo_thrown_continue {V : Type} {op : Nat → Except (JsErr V) V}
    {o : RetryOptions V} {minJ maxJ : ℚ} {rand : Nat → ℚ} {a fuel k : Nat}
    {e : JsErr V}
    (hlt : (a : Int) < o.maxAttempts) (hop : op a = .error e)
    (hdet : o.errorDetector e = true) :
    withRetryGo op o minJ maxJ rand a (fuel + 1) k =
      ⟨a :: (withRetryGo op o minJ maxJ rand (a + 1) fuel
              (if maxJ - minJ > 0 then k + 1 else k)).calls,
       computeWaitTime o.baseDelayMs minJ maxJ (rand k) ::
         (withRetryGo op o minJ maxJ rand (a + 1) fuel
           (if maxJ - minJ > 0 then k + 1 else k)).waits,
       ⟨a, computeWaitTime o.baseDelayMs minJ maxJ (rand k), .error, .inr e⟩ ::
         (withRetryGo op o minJ maxJ rand (a + 1) fuel
           (if maxJ - minJ > 0 then k + 1 else k)).events,
       (withRetryGo op o minJ maxJ rand (a + 1) fuel
         (if maxJ - minJ > 0 then k + 1 else k)).outcome⟩ := by
  simp only [withRetryGo]
  rw [if_neg (not_lt.2 hlt.le), hop]
  simp only [retryCatch_continue hdet hlt]

/-- Unfolding lemma: a cooldown response at the last attempt returns the
fallback when one is supplied. -/
theorem withRetryGo_exhaust_response_fallback {V : Type}
    {op : Nat → Except (JsErr V) V} {o : RetryOptions V} {minJ maxJ : ℚ}
    {rand : Nat → ℚ} {a fuel k : Nat} {v fb : V}
    (hle : (a : Int) ≤ o.maxAttempts) (hge : o.maxAttempts ≤ (a : Int))
    (hop : op a = .ok v) (hdet : o.detector v = true)
    (hfb : o.fallback = some fb) :
    withRetryGo op o minJ maxJ rand a (fuel + 1) k = ⟨[a], [], [], .ok fb⟩ := by
  simp only [withRetryGo]
  rw [if_neg (not_lt.2 hle), hop]
  simp only [hdet, eq_self_iff_true, if_true, if_pos hge, hfb]

/-- Unfolding lemma: a cooldown response at the last attempt with no
fallback throws the terminal error with source `'response'`; the internally
thrown error passes through the catch, whose detector does not classify it. -/
theorem withRetryGo_exhaust_response_noFallback {V : Type}
    {op : Nat → Except (JsErr V) V} {o : RetryOptions V} {minJ maxJ : ℚ}
    {rand : Nat → ℚ} {a fuel k : Nat} {v : V}
    (hle : (a : Int) ≤ o.maxAttempts) (hge : o.maxAttempts ≤ (a : Int))
    (hop : op a = .ok v) (hdet : o.detector v = true)
    (hfb : o.fallback = none)
    (hself : o.errorDetector (.iceResp v) = false) :
    withRetryGo op o minJ maxJ rand a (fuel + 1) k =
      ⟨[a], [], [], .error (.iceResp v)⟩ := by
  simp only [withRetryGo]
  rw [if_neg (not_lt.2 hle), hop]
  simp only [hdet, eq_self_iff_true, if_true, if_pos hge, hfb,
    retryCatch_unrelated hself]

end ImageCooldown

namespace ImageCooldown

/-- C3: for an operation whose first invocation returns a response classified
as cooldown and whose second invocation returns a non-cooldown response,
`withImageCooldownRetry` with `maxAttempts = 3` and jitter range `[0, 0]`
returns the second response after exactly two invocations, with exactly one
computed wait, equal to `baseDelayMs` (and the single cooldown event for
attempt 1); and, in general, a non-cooldown return value is returned
immediately by the loop, with no wait and no further attempts. -/
theorem withRetry_cooldown_then_success {V : Type} (op : Nat → Except (JsErr V) V)
    (o : RetryOptions V) (rand : Nat → ℚ) (r1 r2 : V)
    (hma : o.maxAttempts = 3) (hjr : o.jitterMsRange = (some 0, some 0))
    (h1 : op 1 = .ok r1) (hd1 : o.detector r1 = true)
    (h2 : op 2 = .ok r2) (hd2 : o.detector r2 = false) :
    withImageCooldownRetry op o rand =
      ⟨[1, 2], [o.baseDelayMs], [⟨1, o.baseDelayMs, .response, .inl r1⟩], .ok r2⟩ ∧
    (∀ (op2 : Nat → Except (JsErr V) V) (o2 : RetryOptions V) (minJ maxJ : ℚ)
       (rand2 : Nat → ℚ) (a fuel k : Nat) (v : V),
       (a : Int) ≤ o2.maxAttempts → op2 a = .ok v → o2.detector v = false →
       withRetryGo op2 o2 minJ maxJ rand2 a (fuel + 1) k = ⟨[a], [], [], .ok v⟩) := by
  constructor
  · have hlt1 : ((1 : Nat) : Int) < o.maxAttempts := by rw [hma]; norm_num
    have hle2 : ((2 : Nat) : Int) ≤ o.maxAttempts := by rw [hma]; norm_num
    have hfuel : o.maxAttempts.toNat + 1 = 1 + 1 + 1 + 1 := by rw [hma]; rfl
    have hnj : normalizeJitterRange o.jitterMsRange = (0, 0) := by
      rw [hjr]; norm_num [normalizeJitterRange]
    have hrun : withImageCooldownRetry op o rand =
        withRetryGo op o 0 0 rand 1 (1 + 1 + 1 + 1) 0 := by
      simp only [withImageCooldownRetry, hnj]
      rw [hfuel]
    rw [hrun, withRetryGo_cooldown_continue hlt1 h1 hd1,
      withRetryGo_return hle2 h2 hd2]
    norm_num [computeWaitTime]
  · exact fun op2 o2 minJ maxJ rand2 a fuel k v hle hop hdet =>
      withRetryGo_return hle hop hdet

/-- Witness for C3 at a concrete operation and option set. -/
theorem withRetry_cooldown_then_success_witness :
    withImageCooldownRetry demoOpCooldownThenOk demoOpts3 randZero =
      ⟨[1, 2], [demoOpts3.baseDelayMs],
       [⟨1, demoOpts3.baseDelayMs, .response, .inl 5⟩], .ok 7⟩ ∧
    (∀ (op2 : Nat → Except (JsErr Nat) Nat) (o2 : RetryOptions Nat)
       (minJ maxJ : ℚ) (rand2 : Nat → ℚ) (a fuel k : Nat) (v : Nat),
       (a : Int) ≤ o2.maxAttempts → op2 a = .ok v → o2.detector v = false →
       withRetryGo op2 o2 minJ maxJ rand2 a (fuel + 1) k = ⟨[a], [], [], .ok v⟩) :=
  withRetry_cooldown_then_success demoOpCooldownThenOk demoOpts3 randZero 5 7
    rfl rfl rfl rfl rfl rfl

/-- C5: an invocation that throws an error the error detector does not
classify as cooldown makes the wrapper rethrow that error unmodified at once,
with no wait and no further invocations — stated both for an arbitrary
attempt of the loop and for a whole `withImageCooldownRetry` run. -/
theorem withRetry_unrelated_error_rethrow (V : Type) :
    (∀ (op : Nat → Except (JsErr V) V) (o : RetryOptions V) (minJ maxJ : ℚ)
       (rand : Nat → ℚ) (a fuel k : Nat) (e : JsErr V),
       (a : Int) ≤ o.maxAttempts → op a = .error e → o.errorDetector e = false →
       withRetryGo op o minJ maxJ rand a (fuel + 1) k = ⟨[a], [], [], .error e⟩) ∧
    (∀ (op : Nat → Except (JsErr V) V) (o : RetryOptions V) (rand : Nat → ℚ)
       (e : JsErr V),
       1 ≤ o.maxAttempts → op 1 = .error e → o.errorDetector e = false →
       withImageCooldownRetry op o rand = ⟨[1], [], [], .error e⟩) := by
  have main : ∀ (op : Nat → Except (JsErr V) V) (o : RetryOptions V)
      (minJ maxJ : ℚ) (rand : Nat → ℚ) (a fuel k : Nat) (e : JsErr V),
      (a : Int) ≤ o.maxAttempts → op a = .error e → o.errorDetector e = false →
      withRetryGo op o minJ maxJ rand a (fuel + 1) k = ⟨[a], [], [], .error e⟩ :=
    fun op o minJ maxJ rand a fuel k e hle hop hdet =>
      withRetryGo_thrown hle hop (retryCatch_unrelated hdet)
  refine ⟨main, fun op o rand e h1 hop hdet => ?_⟩
  have hrun : withImageCooldownRetry op o rand =
      withRetryGo op o (normalizeJitterRange o.jitterMsRange).1
        (normalizeJitterRange o.jitterMsRange).2 rand 1 (o.maxAttempts.toNat + 1) 0 := by
    simp only [withImageCooldownRetry]
  rw [hrun]
  exact main op o _ _ rand 1 o.maxAttempts.toNat 0 e (by exact_mod_cast h1) hop hdet

/-- Witness for C5: a thrown user error not classified as cooldown is
rethrown at once. -/
theorem withRetry_unrelated_error_rethrow_witness :
    withImageCooldownRetry demoOpThrow demoOptsPlain randZero =
      ⟨[1], [], [], .error (.user 9)⟩ :=
  (withRetry_unrelated_error_rethrow Nat).2 demoOpThrow demoOptsPlain randZero
    (.user 9) (by decide) rfl rfl

/-- C10: for `maxAttempts ≤ 0` the loop never runs, the operation is never
invoked, and the generic terminal cooldown error — message
`'Image generation failed after cooldown handling.'`, no source, no payload —
is raised. -/
theorem withRetry_nonpositive_maxAttempts {V : Type} (op : Nat → Except (JsErr V) V)
    (o : RetryOptions V) (rand : Nat → ℚ) (h : o.maxAttempts ≤ 0) :
    withImageCooldownRetry op o rand = ⟨[], [], [], .error .iceGeneric⟩ ∧
    (JsErr.iceGeneric : JsErr V).message =
      some "Image generation failed after cooldown handling." ∧
    (JsErr.iceGeneric : JsErr V).source = none ∧
    (JsErr.iceGeneric : JsErr V).payload = none := by
  refine ⟨?_, rfl, rfl, rfl⟩
  have hz : o.maxAttempts.toNat = 0 := Int.toNat_of_nonpos h
  simp only [withImageCooldownRetry, hz]
  simp only [withRetryGo]
  rw [if_pos (by omega)]

/-- Witness for C10 at `maxAttempts = 0`. -/
theorem withRetry_nonpositive_maxAttempts_witness :
    withImageCooldownRetry demoOp demoOptsZero randZero =
      ⟨[], [], [], .error .iceGeneric⟩ ∧
    (JsErr.iceGeneric : JsErr Nat).message =
      some "Image generation failed after cooldown handling." ∧
    (JsErr.iceGeneric : JsErr Nat).source = none ∧
    (JsErr.iceGeneric : JsErr Nat).payload = none :=
  withRetry_nonpositive_maxAttempts demoOp demoOptsZero randZero (by decide)

end ImageCooldown

namespace ImageCooldown

/-- C4: when both attempts of a `maxAttempts = 2` run classify as cooldown
(as responses or as thrown errors), the operation is invoked exactly twice;
with a fallback the run returns the fallback's value and never throws;
without one it throws the terminal cooldown error whose `source` matches the
last observed failure mode (`'response'`/`'error'`) and whose payload is the
last observed result or error.  The hypothesis `hself` records that the error
detector does not classify the wrapper's own terminal error (true of the
default `isImageCooldownError`, whose patterns do not match
`'Image generation cooldown detected.'`). -/
theorem withRetry_exhaustion {V : Type} (op : Nat → Except (JsErr V) V)
    (o : RetryOptions V) (rand : Nat → ℚ)
    (hma : o.maxAttempts = 2)
    (h1 : (∃ r, op 1 = .ok r ∧ o.detector r = true) ∨
          (∃ e, op 1 = .error e ∧ o.errorDetector e = true))
    (h2 : (∃ r, op 2 = .ok r ∧ o.detector r = true) ∨
          (∃ e, op 2 = .error e ∧ o.errorDetector e = true))
    (hself : ∀ v : V, o.errorDetector (.iceResp v) = false) :
    (withImageCooldownRetry op o rand).calls = [1, 2] ∧
    (∀ fb, o.fallback = some fb →
      (withImageCooldownRetry op o rand).outcome = .ok fb) ∧
    (o.fallback = none →
      (∀ r, op 2 = .ok r →
        (withImageCooldownRetry op o rand).outcome = .error (.iceResp r) ∧
        (JsErr.iceResp r : JsErr V).source = some .response ∧
        (JsErr.iceResp r : JsErr V).payload = some (.inl r)) ∧
      (∀ e, op 2 = .error e →
        (withImageCooldownRetry op o rand).outcome = .error (.iceErr e) ∧
        (JsErr.iceErr e : JsErr V).source = some .error ∧
        (JsErr.iceErr e : JsErr V).payload = some (.inr e))) := by
  have hlt1 : ((1 : Nat) : Int) < o.maxAttempts := by rw [hma]; norm_num
  have hle2 : ((2 : Nat) : Int) ≤ o.maxAttempts := by rw [hma]; norm_num
  have hge2 : o.maxAttempts ≤ ((2 : Nat) : Int) := by rw [hma]; norm_num
  have hrun1 : withImageCooldownRetry op o rand =
      withRetryGo op o (normalizeJitterRange o.jitterMsRange).1
        (normalizeJitterRange o.jitterMsRange).2 rand 1 (1 + 1 + 1) 0 := by
    have hfuel : o.maxAttempts.toNat + 1 = 1 + 1 + 1 := by rw [hma]; rfl
    simp only [withImageCooldownRetry]
    rw [hfuel]
  rcases hfb : o.fallback with _ | fb
  · rcases h2 with ⟨r2, hop2, hd2⟩ | ⟨e2, hop2, hd2⟩
    · have hrun : ∀ k : Nat, (withRetryGo op o (normalizeJitterRange o.jitterMsRange).1
          (normalizeJitterRange o.jitterMsRange).2 rand 2 (1 + 1) k).calls = [2] ∧
          (withRetryGo op o (normalizeJitterRange o.jitterMsRange).1
          (normalizeJitterRange o.jitterMsRange).2 rand 2 (1 + 1) k).outcome =
            .error (.iceResp r2) := by
        intro k
        rw [withRetryGo_exhaust_response_noFallback hle2 hge2 hop2 hd2 hfb (hself r2)]
        exact ⟨rfl, rfl⟩
      rcases h1 with ⟨r1, hop1, hd1⟩ | ⟨e1, hop1, hd1⟩
      · rw [hrun1, withRetryGo_cooldown_continue hlt1 hop1 hd1]
        refine ⟨by simp [(hrun _).1], ?_, ?_⟩
        · intro fb hfb2; exact Option.noConfusion hfb2
        · intro _
          constructor
          · intro r hr
            have hr2 : r2 = r := Except.ok.inj (hop2.symm.trans hr)
            subst hr2
            exact ⟨by simp [(hrun _).2], rfl, rfl⟩
          · intro e he; rw [hop2] at he; cases he
      · rw [hrun1, withRetryGo_thrown_continue hlt1 hop1 hd1]
        refine ⟨by simp [(hrun _).1], ?_, ?_⟩
        · intro fb hfb2; exact Option.noConfusion hfb2
        · intro _
          constructor
          · intro r hr
            have hr2 : r2 = r := Except.ok.inj (hop2.symm.trans hr)
            subst hr2
            exact ⟨by simp [(hrun _).2], rfl, rfl⟩
          · intro e he; rw [hop2] at he; cases he
    · have hrun : ∀ k : Nat, (withRetryGo op o (normalizeJitterRange o.jitterMsRange).1
          (normalizeJitterRange o.jitterMsRange).2 rand 2 (1 + 1) k).calls = [2] ∧
          (withRetryGo op o (normalizeJitterRange o.jitterMsRange).1
          (normalizeJitterRange o.jitterMsRange).2 rand 2 (1 + 1) k).outcome =
            .error (.iceErr e2) := by
        intro k
        rw [withRetryGo_thrown hle2 hop2 (retryCatch_exhaust_noFallback hd2 hge2 hfb)]
        exact ⟨rfl, rfl⟩
      rcases h1 with ⟨r1, hop1, hd1⟩ | ⟨e1, hop1, hd1⟩
      · rw [hrun1, withRetryGo_cooldown_continue hlt1 hop1 hd1]
        refine ⟨by simp [(hrun _).1], ?_, ?_⟩
        · intro fb hfb2; exact Option.noConfusion hfb2
        · intro _
          constructor
          · intro r hr; rw [hop2] at hr; cases hr
          · intro e he
            have he2 : e2 = e := Except.error.inj (hop2.symm.trans he)
            subst he2
            exact ⟨by simp [(hrun _).2], rfl, rfl⟩
      · rw [hrun1, withRetryGo_thrown_continue hlt1 hop1 hd1]
        refine ⟨by simp [(hrun _).1], ?_, ?_⟩
        · intro fb hfb2; exact Option.noConfusion hfb2
        · intro _
          constructor
          · intro r hr; rw [hop2] at hr; cases hr
          · intro e he
            have he2 : e2 = e := Except.error.inj (hop2.symm.trans he)
            subst he2
            exact ⟨by simp [(hrun _).2], rfl, rfl⟩
  · have hrun : ∀ k : Nat, (withRetryGo op o (normalizeJitterRange o.jitterMsRange).1
        (normalizeJitterRange o.jitterMsRange).2 rand 2 (1 + 1) k).calls = [2] ∧
        (withRetryGo op o (normalizeJitterRange o.jitterMsRange).1
        (normalizeJitterRange o.jitterMsRange).2 rand 2 (1 + 1) k).outcome = .ok fb := by
      intro k
      rcases h2 with ⟨r2, hop2, hd2⟩ | ⟨e2, hop2, hd2⟩
      · rw [withRetryGo_exhaust_response_fallback hle2 hge2 hop2 hd2 hfb]
        exact ⟨rfl, rfl⟩
      · rw [withRetryGo_thrown hle2 hop2 (retryCatch_exhaust_fallback hd2 hge2 hfb)]
        exact ⟨rfl, rfl⟩
    have hfinish : (withImageCooldownRetry op o rand).calls = [1, 2] ∧
        (withImageCooldownRetry op o rand).outcome = .ok fb := by
      rcases h1 with ⟨r1, hop1, hd1⟩ | ⟨e1, hop1, hd1⟩
      · rw [hrun1, withRetryGo_cooldown_continue hlt1 hop1 hd1]
        exact ⟨by simp [(hrun _).1], by simp [(hrun _).2]⟩
      · rw [hrun1, withRetryGo_thrown_continue hlt1 hop1 hd1]
        exact ⟨by simp [(hrun _).1], by simp [(hrun _).2]⟩
    refine ⟨hfinish.1, ?_, ?_⟩
    · intro fb2 hfb2
      obtain rfl : fb = fb2 := Option.some.inj hfb2
      exact hfinish.2
    · intro hnone; exact Option.noConfusion hnone

end ImageCooldown

namespace ImageCooldown

/-- Witness for C4 at a concrete always-cooldown operation without fallback. -/
theorem withRetry_exhaustion_witness :
    (withImageCooldownRetry demoOp demoOptsExhaust randZero).calls = [1, 2] ∧
    (∀ fb, demoOptsExhaust.fallback = some fb →
      (withImageCooldownRetry demoOp demoOptsExhaust randZero).outcome = .ok fb) ∧
    (demoOptsExhaust.fallback = none →
      (∀ r, demoOp 2 = .ok r →
        (withImageCooldownRetry demoOp demoOptsExhaust randZero).outcome =
          .error (.iceResp r) ∧
        (JsErr.iceResp r : JsErr Nat).source = some .response ∧
        (JsErr.iceResp r : JsErr Nat).payload = some (.inl r)) ∧
      (∀ e, demoOp 2 = .error e →
        (withImageCooldownRetry demoOp demoOptsExhaust randZero).outcome =
          .error (.iceErr e) ∧
        (JsErr.iceErr e : JsErr Nat).source = some .error ∧
        (JsErr.iceErr e : JsErr Nat).payload = some (.inr e))) :=
  withRetry_exhaustion demoOp demoOptsExhaust randZero rfl
    (Or.inl ⟨1, rfl, rfl⟩) (Or.inl ⟨1, rfl, rfl⟩) (fun _ => rfl)

/-- Shared fact: an in-order supplied pair normalizes to nonnegative bounds. -/
theorem normalizeJitterRange_nonneg (a b : ℚ) (hab : a ≤ b) :
    0 ≤ (normalizeJitterRange (some a, some b)).1 ∧
    0 ≤ (normalizeJitterRange (some a, some b)).2 := by
  rw [normalizeJitterRange, if_neg (not_lt.2 hab)]
  exact ⟨le_max_left 0 a, le_max_left 0 b⟩

/-- C6 (amended): the normalized jitter range always satisfies `min ≤ max`;
both bounds are `≥ 0` whenever the supplied pair is in order (the zero-clamp
is only applied in the non-reversed branch); `NaN` in either bound collapses
to `[0, 0]`; `[10, 5]` normalizes to `[5, 10]` and `[NaN, NaN]` to `[0, 0]`. -/
theorem normalizeJitterRange_spec :
    (∀ p : Option ℚ × Option ℚ,
      (normalizeJitterRange p).1 ≤ (normalizeJitterRange p).2) ∧
    (∀ a b : ℚ, a ≤ b →
      0 ≤ (normalizeJitterRange (some a, some b)).1 ∧
      0 ≤ (normalizeJitterRange (some a, some b)).2) ∧
    (∀ p : Option ℚ × Option ℚ, p.1 = none ∨ p.2 = none →
      normalizeJitterRange p = (0, 0)) ∧
    normalizeJitterRange (some 10, some 5) = (5, 10) ∧
    normalizeJitterRange (none, none) = (0, 0) := by
  refine ⟨?_, ?_, ?_, by norm_num [normalizeJitterRange], rfl⟩
  · rintro ⟨a | a, b | b⟩ <;> simp [normalizeJitterRange]
    split
    · exact le_of_lt (by assumption)
    · exact max_le_max le_rfl (not_lt.1 (by assumption))
  · exact normalizeJitterRange_nonneg
  · rintro ⟨a | a, b | b⟩ h
    · rfl
    · rfl
    · rfl
    · simp at h

/-- Witness for C6's amended claim at concrete ranges. -/
theorem normalizeJitterRange_spec_witness :
    (0 ≤ (normalizeJitterRange (some 2, some 3)).1 ∧
     0 ≤ (normalizeJitterRange (some 2, some 3)).2) ∧
    normalizeJitterRange (some 4, none) = (0, 0) :=
  ⟨normalizeJitterRange_spec.2.1 2 3 (by norm_num),
   normalizeJitterRange_spec.2.2.1 (some 4, none) (Or.inr rfl)⟩

/-- Counterexample to C6 as stated: a reversed pair with a negative bound is
swapped without the zero-clamp, so `[0, -1]` normalizes to `[-1, 0]`, whose
minimum is negative — the normalized bounds are not always `≥ 0`. -/
theorem normalizeJitterRange_claim_cex :
    normalizeJitterRange (some 0, some (-1)) = (-1, 0) ∧
    ¬ (0 ≤ (normalizeJitterRange (some 0, some (-1))).1) ∧
    ¬ ∀ p : Option ℚ × Option ℚ,
        0 ≤ (normalizeJitterRange p).1 ∧ 0 ≤ (normalizeJitterRange p).2 := by
  refine ⟨by norm_num [normalizeJitterRange], by norm_num [normalizeJitterRange],
    fun h => ?_⟩
  have := (h (some 0, some (-1))).1
  norm_num [normalizeJitterRange] at this

/-- Computation rule of `computeWaitTime` in the shape of the spec sentence. -/
theorem computeWaitTime_eq (base minJ maxJ r : ℚ) :
    computeWaitTime base minJ maxJ r =
      base + (if 0 < maxJ - minJ then r * (maxJ - minJ) + minJ else minJ) := by
  show base + (if max 0 (maxJ - minJ) > 0 then
      r * max 0 (maxJ - minJ) + minJ else minJ) = _
  rcases lt_or_le 0 (maxJ - minJ) with h | h
  · rw [max_eq_right h.le, if_pos h]
  · rw [max_eq_left h, if_neg (lt_irrefl 0), if_neg (not_lt.2 h)]

/-- C7 (amended): each computed wait equals `baseDelayMs` plus (the jitter
draw `r·(max − min) + min` when the span is positive, otherwise `min`); for
draws in `[0, 1)` it lies in `[baseDelayMs + min, baseDelayMs + max]`; it is
at least `baseDelayMs` whenever `min ≥ 0`, which holds for every jitter range
supplied in order — but not for a reversed range with a negative bound, whose
normalization skips the zero-clamp. -/
theorem computeWaitTime_spec :
    (∀ base minJ maxJ r : ℚ,
      computeWaitTime base minJ maxJ r =
        base + (if 0 < maxJ - minJ then r * (maxJ - minJ) + minJ else minJ)) ∧
    (∀ base minJ maxJ r : ℚ, 0 ≤ r →
      base + minJ ≤ computeWaitTime base minJ maxJ r) ∧
    (∀ base minJ maxJ r : ℚ, 0 ≤ r → r < 1 → minJ ≤ maxJ →
      computeWaitTime base minJ maxJ r ≤ base + maxJ) ∧
    (∀ base minJ maxJ r : ℚ, 0 ≤ minJ → 0 ≤ r →
      base ≤ computeWaitTime base minJ maxJ r) ∧
    (∀ a b : ℚ, a ≤ b → 0 ≤ (normalizeJitterRange (some a, some b)).1) := by
  refine ⟨computeWaitTime_eq, ?_, ?_, ?_, ?_⟩
  · intro base minJ maxJ r hr
    rw [computeWaitTime_eq]
    split
    · nlinarith
    · exact le_refl _
  · intro base minJ maxJ r hr hr1 hmm
    rw [computeWaitTime_eq]
    split
    · nlinarith
    · linarith
  · intro base minJ maxJ r hmin hr
    rw [computeWaitTime_eq]
    split
    · nlinarith
    · linarith
  · intro a b hab
    exact (normalizeJitterRange_nonneg a b hab).1

/-- Witness for C7's amended claim at concrete values. -/
theorem computeWaitTime_spec_witness :
    ((0 : ℚ) + 2 ≤ computeWaitTime 0 2 5 (1 / 2)) ∧
    (computeWaitTime 0 2 5 (1 / 2) ≤ (0 : ℚ) + 5) ∧
    ((0 : ℚ) ≤ computeWaitTime 0 2 5 (1 / 2)) ∧
    (0 ≤ (normalizeJitterRange (some 1, some 2)).1) :=
  ⟨computeWaitTime_spec.2.1 0 2 5 (1 / 2) (by norm_num),
   computeWaitTime_spec.2.2.1 0 2 5 (1 / 2) (by norm_num) (by norm_num) (by norm_num),
   computeWaitTime_spec.2.2.2.1 0 2 5 (1 / 2) (by norm_num) (by norm_num),
   computeWaitTime_spec.2.2.2.2 1 2 (by norm_num)⟩

/-- Counterexample to C7 as stated: with the accepted option set
`jitterMsRange = [0, -10]` (normalized to `[-10, 0]`, positive span, negative
minimum) and zero draws, a full `withImageCooldownRetry` run computes waits of
`59990`, strictly below `baseDelayMs = 60000` — computed waits are not always
at least `baseDelayMs`. -/
theorem computeWaitTime_claim_cex :
    (withImageCooldownRetry demoOp reversedJitterOpts randZero).waits =
      [59990, 59990] ∧
    ∀ w ∈ (withImageCooldownRetry demoOp reversedJitterOpts randZero).waits,
      w < reversedJitterOpts.baseDelayMs := by
  have hwaits : (withImageCooldownRetry demoOp reversedJitterOpts randZero).waits =
      [59990, 59990] := by
    have hnj : normalizeJitterRange reversedJitterOpts.jitterMsRange = (-10, 0) := by
      norm_num [reversedJitterOpts, normalizeJitterRange]
    have hrun : withImageCooldownRetry demoOp reversedJitterOpts randZero =
        withRetryGo demoOp reversedJitterOpts (-10) 0 randZero 1 (1 + 1 + 1 + 1) 0 := by
      simp only [withImageCooldownRetry, hnj]
      rfl
    rw [hrun,
      withRetryGo_cooldown_continue (o := reversedJitterOpts) (by decide)
        (show demoOp 1 = Except.ok 1 from rfl) rfl,
      withRetryGo_cooldown_continue (o := reversedJitterOpts) (by decide)
        (show demoOp 2 = Except.ok 1 from rfl) rfl,
      withRetryGo_exhaust_response_noFallback (o := reversedJitterOpts) (by decide)
        (by decide) (show demoOp 3 = Except.ok 1 from rfl) rfl rfl rfl]
    norm_num [computeWaitTime, reversedJitterOpts, randZero]
  refine ⟨hwaits, ?_⟩
  rw [hwaits]
  intro w hw
  have hw2 : w = 59990 := by
    rcases List.mem_cons.1 hw with h | h
    · exact h
    · simpa using h
  rw [hw2]
  norm_num [reversedJitterOpts]

/-- C8: `extractAssistantContent` returns `"X"` for the chat-choice payload,
`"Y"` for the bare string payload, and `undefined` for the empty object. -/
theorem extractAssistantContent_examples :
    extractAssistantContent
      (.obj [("choices", .arr [.obj [("message", .obj [("content", .str "X")])]])]) =
      some "X" ∧
    extractAssistantContent (.str "Y") = some "Y" ∧
    extractAssistantContent (.obj []) = none :=
  ⟨rfl, rfl, rfl⟩

end ImageCooldown

namespace PromptQueue

/-- The prompt loop emits no flag events: the `isProcessing` flag is touched
only at the run's boundaries. -/
theorem queueLoop_no_flag (env : QEnv) (n : Nat) :
    ∀ (ps : List String) (i : Nat) (b : Bool),
      QEvent.flagSet b ∉ (queueLoop env n i ps).1 := by
  intro ps
  induction ps with
  | nil => intro i b; simp [queueLoop]
  | cons p rest ih =>
    intro i b
    unfold queueLoop
    cases hs : env.sendRes i with
    | error m => simp
    | ok u =>
      cases hw : env.waitRes i with
      | error m => simp
      | ok u2 =>
        simp
        exact ih (i + 1) b

/-- The `try` body of `processPrompts` emits no flag events. -/
theorem processBody_no_flag (env : QEnv) (ps : List String) (b : Bool) :
    QEvent.flagSet b ∉ (processBody env ps).1 := by
  unfold processBody
  cases env.ensureRes with
  | error m => simp
  | ok u =>
    cases env.initWait with
    | error m => simp
    | ok u2 =>
      simp
      exact queueLoop_no_flag env ps.length ps 0 b

/-- C1: single-flight guard.  (a) Every `processPrompts` run — whatever the
environment does and however it ends — sets the `isProcessing` flag to `true`
first, resets it to `false` last, and never touches it in between (the
source's `try`/`finally` discipline).  (b) A `START_PROMPT_QUEUE` trigger
received while the flag is `true` is answered with the
`'A prompt queue is already running.'` error, and nothing runs: no event at
all, in particular no `sendPrompt` invocation, is emitted. -/
theorem queue_single_flight :
    (∀ (env : QEnv) (ps : List String), ∃ mid : List QEvent,
       (processPrompts env ps).1 =
         QEvent.flagSet true :: (mid ++ [QEvent.flagSet false]) ∧
       ∀ b : Bool, QEvent.flagSet b ∉ mid) ∧
    (∀ (env : QEnv) (ps : List String),
       handleStartPromptQueue true env ps =
         (Reply.err "A prompt queue is already running.", []) ∧
       ∀ (i : Nat) (p : String),
         QEvent.send i p ∉ (handleStartPromptQueue true env ps).2) := by
  constructor
  · intro env ps
    exact ⟨(processBody env ps).1, rfl, fun b => processBody_no_flag env ps b⟩
  · intro env ps
    refine ⟨rfl, fun i p => ?_⟩
    simp [handleStartPromptQueue]

/-- Witness for C1 at a concrete environment and prompt list. -/
theorem queue_single_flight_witness :
    (∃ mid : List QEvent,
       (processPrompts envOk ["a"]).1 =
         QEvent.flagSet true :: (mid ++ [QEvent.flagSet false]) ∧
       ∀ b : Bool, QEvent.flagSet b ∉ mid) ∧
    handleStartPromptQueue true envOk ["a"] =
      (Reply.err "A prompt queue is already running.", []) :=
  ⟨queue_single_flight.1 envOk ["a"], (queue_single_flight.2 envOk ["a"]).1⟩

/-- In an all-success environment the loop produces exactly the canonical
per-prompt trace. -/
theorem queueLoop_ok (env : QEnv) (n : Nat)
    (hs : ∀ i, env.sendRes i = .ok ()) (hw : ∀ i, env.waitRes i = .ok ()) :
    ∀ (ps : List String) (i : Nat),
      queueLoop env n i ps = (expectedTrace n i ps, .ok ()) := by
  intro ps
  induction ps with
  | nil => intro i; rfl
  | cons p rest ih =>
    intro i
    unfold queueLoop
    rw [hs i, hw i, ih (i + 1)]
    rfl

/-- The sends of the canonical trace are the prompts with their indices. -/
theorem expectedTrace_sends (n : Nat) :
    ∀ (ps : List String) (i : Nat),
      (expectedTrace n i ps).filterMap sendOf = List.enumFrom i ps := by
  intro ps
  induction ps with
  | nil => intro i; rfl
  | cons p rest ih =>
    intro i
    simp [expectedTrace, List.filterMap_cons, sendOf, List.enumFrom, ih (i + 1)]

/-- C2: in a run where every step succeeds, a non-empty prompt list produces
exactly the canonical trace: after the flag is raised and the initial
composer lookup and idle wait, each prompt in order contributes its
`Sending` notification, one `sendPrompt`, its `Waiting` notification, one
completion wait, its `Done` notification and the settle delay — so prompt
`i+1`'s send strictly follows prompt `i`'s completion wait — and the flag is
lowered at the end; consequently the send invocations are exactly the
prompts, once each, in list order. -/
theorem queue_processes_in_order (env : QEnv) (ps : List String)
    (_hne : ps ≠ [])
    (he : env.ensureRes = .ok ()) (hiw : env.initWait = .ok ())
    (hs : ∀ i, env.sendRes i = .ok ()) (hw : ∀ i, env.waitRes i = .ok ()) :
    processPrompts env ps =
      (QEvent.flagSet true ::
        ((QEvent.ensure :: QEvent.waitC :: expectedTrace ps.length 0 ps) ++
          [QEvent.flagSet false]), Except.ok ()) ∧
    (processPrompts env ps).1.filterMap sendOf = List.enumFrom 0 ps := by
  have hb : processBody env ps =
      (QEvent.ensure :: QEvent.waitC :: expectedTrace ps.length 0 ps, .ok ()) := by
    unfold processBody
    rw [he, hiw, queueLoop_ok env ps.length hs hw ps 0]
  constructor
  · simp only [processPrompts, hb]
  · simp only [processPrompts, hb]
    simp [List.filterMap_cons, List.filterMap_append, sendOf,
      expectedTrace_sends ps.length ps 0]

/-- Witness for C2 at a concrete two-prompt queue. -/
theorem queue_processes_in_order_witness :
    processPrompts envOk ["a", "b"] =
      (QEvent.flagSet true ::
        ((QEvent.ensure :: QEvent.waitC :: expectedTrace 2 0 ["a", "b"]) ++
          [QEvent.flagSet false]), Except.ok ()) ∧
    (processPrompts envOk ["a", "b"]).1.filterMap sendOf =
      List.enumFrom 0 ["a", "b"] :=
  queue_processes_in_order envOk ["a", "b"] (by simp) rfl rfl
    (fun _ => rfl) (fun _ => rfl)

end PromptQueue

namespace Dom

/-- The head of a list, when present, is a member. -/
theorem head?_mem {α : Type} {l : List α} {x : α} (h : l.head? = some x) :
    x ∈ l := by
  cases l with
  | nil => simp at h
  | cons a as =>
    rw [List.head?_cons, Option.some.injEq] at h
    subst h
    exact List.mem_cons_self _ _

/-- An element matching a selector matches its rightmost simple selector. -/
theorem matchesSel_last {anc : List Elem} {sel : Selector} {e : Elem}
    (h : matchesSel anc sel e = true) :
    matchesSimple (lastSimple sel) e = true := by
  cases sel with
  | one s => exact h
  | desc a b =>
    simp only [matchesSel, Bool.and_eq_true] at h
    exact h.1

/-- Soundness of the selector engine: every element it returns matches the
rightmost simple selector and belongs to the searched forest. -/
theorem qsa_sound (sel : Selector) :
    ∀ (anc l : List Elem) (x : Elem), x ∈ qsaChildren sel anc l →
      matchesSimple (lastSimple sel) x = true ∧ x ∈ allList l
  | _, [], _, h => by simp [qsaChildren] at h
  | anc, .mk d cs :: es, x, h => by
    simp only [qsaChildren] at h
    rcases List.mem_append.1 h with h1 | h2
    · rcases List.mem_append.1 h1 with ha | hb
      · have hm : matchesSel anc sel (.mk d cs) = true ∧ x = .mk d cs := by
          by_cases hc : matchesSel anc sel (.mk d cs) = true
          · simp [hc] at ha
            exact ⟨hc, ha⟩
          · simp [hc] at ha
        rcases hm with ⟨hc, rfl⟩
        refine ⟨matchesSel_last hc, ?_⟩
        simp only [allList]
        exact List.mem_cons_self _ _
      · have ih := qsa_sound sel (Elem.mk d cs :: anc) cs x hb
        refine ⟨ih.1, ?_⟩
        simp only [allList]
        exact List.mem_cons_of_mem _ (List.mem_append_left _ ih.2)
    · have ih := qsa_sound sel anc es x h2
      refine ⟨ih.1, ?_⟩
      simp only [allList]
      exact List.mem_cons_of_mem _ (List.mem_append_right _ ih.2)

/-- The descendants of a member of a forest are members of the forest. -/
theorem allList_descend :
    ∀ (l : List Elem) (e : Elem), e ∈ allList l →
      ∀ x ∈ allList e.children, x ∈ allList l
  | [], _, he, _, _ => by simp [allList] at he
  | .mk d cs :: es, e, he, x, hx => by
    simp only [allList] at he ⊢
    rcases List.mem_cons.1 he with rfl | hmem
    · simp only [Elem.children] at hx
      exact List.mem_cons_of_mem _ (List.mem_append_left _ hx)
    · rcases List.mem_append.1 hmem with h1 | h2
      · exact List.mem_cons_of_mem _
          (List.mem_append_left _ (allList_descend cs e h1 x hx))
      · exact List.mem_cons_of_mem _
          (List.mem_append_right _ (allList_descend es e h2 x hx))

/-- Soundness of `querySelectorAll` on a document. -/
theorem querySelectorAll_sound {doc : List Elem} {sel : Selector} {x : Elem}
    (h : x ∈ querySelectorAll doc sel) :
    matchesSimple (lastSimple sel) x = true ∧ x ∈ allList doc :=
  qsa_sound sel [] doc x h

/-- Soundness of `querySelector` on a document. -/
theorem querySelector_sound {doc : List Elem} {sel : Selector} {x : Elem}
    (h : querySelector doc sel = some x) :
    matchesSimple (lastSimple sel) x = true ∧ x ∈ allList doc :=
  qsa_sound sel [] doc x (head?_mem h)

/-- Soundness of the scoped `el.querySelector`. -/
theorem elQuery_sound {e : Elem} {sel : Selector} {x : Elem}
    (h : elQuery e sel = some x) :
    matchesSimple (lastSimple sel) x = true ∧ x ∈ allList e.children :=
  qsa_sound sel [e] e.children x (head?_mem h)

/-- In a document with no contenteditable region and no textarea/input, every
matched element falls through all four branches of `getComposer`'s loop body. -/
theorem composerStep_none {doc : List Elem}
    (h1 : ∀ e ∈ allList doc, getAttr e "contenteditable" ≠ some "true" ∧
          e.tag ≠ "textarea" ∧ e.tag ≠ "input")
    {el : Elem} (hel : el ∈ allList doc) : composerStep el = none := by
  have hmce : ∀ x ∈ allList doc, matchesSimple ceSimple x = false := by
    intro x hx
    simp [matchesSimple, ceSimple, matchesCond]
    exact (h1 x hx).1
  have hq1 : elQuery el (.one ceSimple) = none := by
    cases hq : elQuery el (.one ceSimple) with
    | none => rfl
    | some x =>
      obtain ⟨hm, hx⟩ := elQuery_sound hq
      simp only [lastSimple] at hm
      rw [hmce x (allList_descend doc el hel x hx)] at hm
      cases hm
  have hq2 : elQuery el (.one taSimple) = none := by
    cases hq : elQuery el (.one taSimple) with
    | none => rfl
    | some x =>
      obtain ⟨hm, hx⟩ := elQuery_sound hq
      have htag : x.tag = "textarea" := by
        simp [matchesSimple, lastSimple, taSimple] at hm
        exact hm
      exact absurd htag (h1 x (allList_descend doc el hel x hx)).2.1
  have htag : (el.tag == "textarea" || el.tag == "input") = false := by
    simp [(h1 el hel).2.1, (h1 el hel).2.2]
  unfold composerStep
  simp [hmce el hel, hq1, hq2, htag]

/-- Under the same hypothesis, `getComposer`'s scan returns `null` whatever
the ranked selector list contains. -/
theorem composerScan_none (doc : List Elem)
    (h1 : ∀ e ∈ allList doc, getAttr e "contenteditable" ≠ some "true" ∧
          e.tag ≠ "textarea" ∧ e.tag ≠ "input") :
    ∀ sels : List Selector, composerScan doc sels = none := by
  intro sels
  induction sels with
  | nil => rfl
  | cons sel rest ih =>
    simp only [composerScan]
    cases hq : querySelector doc sel with
    | none => exact ih
    | some el =>
      simp only [composerStep_none h1 (querySelector_sound hq).2]
      exact ih

/-- When every button in the document fails the usability filter, the ranked
send-button scan returns `null` for any selector list whose rightmost simple
selectors all require the `button` tag. -/
theorem sendScan_none (incl : Bool) (doc : List Elem)
    (h2 : ∀ e ∈ allList doc, e.tag = "button" → usableSend incl e = false) :
    ∀ sels : List Selector,
      (∀ sel ∈ sels, (lastSimple sel).tag = some "button") →
      sendScan incl doc sels = none := by
  intro sels
  induction sels with
  | nil => intro _; rfl
  | cons sel rest ih =>
    intro hall
    simp only [sendScan]
    cases hf : (querySelectorAll doc sel).find? (usableSend incl) with
    | none => exact ih (fun s hs => hall s (List.mem_cons_of_mem _ hs))
    | some b =>
      exfalso
      have huse : usableSend incl b = true := List.find?_some hf
      obtain ⟨hm, hbdoc⟩ := querySelectorAll_sound (List.mem_of_find?_eq_some hf)
      have htag : b.tag = "button" := by
        simp only [matchesSimple, hall sel (List.mem_cons_self _ _),
          Bool.and_eq_true] at hm
        exact eq_of_beq hm.1
      rw [h2 b hbdoc htag] at huse
      cases huse

/-- The text-heuristic fallback loop also returns `null` when every candidate
fails the usability filter. -/
theorem sendFallbackScan_none (incl : Bool) :
    ∀ l : List Elem, (∀ b ∈ l, usableSend incl b = false) →
      sendFallbackScan incl l = none := by
  intro l
  induction l with
  | nil => intro _; rfl
  | cons b bs ih =>
    intro h
    simp only [sendFallbackScan]
    simp [h b (List.mem_cons_self _ _)]
    exact ih (fun x hx => h x (List.mem_cons_of_mem _ hx))

/-- The locator `getSendButton` returns `null` when every button fails the usability
filter. -/
theorem getSendButton_none (incl : Bool) (doc : List Elem)
    (h2 : ∀ e ∈ allList doc, e.tag = "button" → usableSend incl e = false) :
    getSendButton incl doc = none := by
  unfold getSendButton
  rw [sendScan_none incl doc h2 sendSelectors (by decide)]
  show sendFallbackScan incl (querySelectorAll doc buttonSel) = none
  apply sendFallbackScan_none
  intro b hb
  obtain ⟨hm, hbdoc⟩ := querySelectorAll_sound hb
  have htag : b.tag = "button" := by
    simp only [buttonSel, lastSimple, matchesSimple, Bool.and_eq_true] at hm
    exact eq_of_beq hm.1
  exact h2 b hbdoc htag

/-- C9: the element locators return `null`, and being total functions throw
nothing, when no matcher in their ranked selector lists resolves to a usable
element: with no contenteditable region and no textarea/input in the document
the composer locator returns `null`, and with no button passing the
visible/not-stop/not-disabled filter the submit-button locator returns
`null` — in particular on the empty document. -/
theorem locator_null_when_no_usable (doc : List Elem)
    (h1 : ∀ e ∈ allList doc, getAttr e "contenteditable" ≠ some "true" ∧
          e.tag ≠ "textarea" ∧ e.tag ≠ "input")
    (h2 : ∀ e ∈ allList doc, e.tag = "button" →
          ∀ incl : Bool, usableSend incl e = false) :
    getComposer doc = none ∧ ∀ incl : Bool, getSendButton incl doc = none :=
  ⟨composerScan_none doc h1 composerSelectors,
   fun incl => getSendButton_none incl doc (fun e he ht => h2 e he ht incl)⟩

/-- Witness for C9 on the empty document. -/
theorem locator_null_when_no_usable_witness :
    getComposer [] = none ∧ ∀ incl : Bool, getSendButton incl [] = none :=
  locator_null_when_no_usable []
    (by intro e he; simp [allList] at he)
    (by intro e he; simp [allList] at he)

end Dom
